import Mathlib

/-!
Verification development for the perceptr-web-sdk capture-to-upload pipeline.

The definitions below are shallow embeddings of the TypeScript sources:
  * `src/EventBuffer.ts` (the current version, with `lastBatchEndTime`):
    `addEvent`, `addEvents`, `flush`, the internal-log filter and the
    failure/backoff bookkeeping.
  * `src/utils/sessionrecording-utils.ts`: `splitBuffer`.
  * `src/common/services/ApiService.ts`: `getUploadBufferUrl`, `sendEvents`.
  * `src/NetworkMonitor.ts`: the enable/disable shim install logic and
    `sanitizeUrl`/`shouldSanitizeParam`.

Machine numbers are modelled as `Nat` (all quantities involved are
non-negative integers: millisecond clock readings and byte counts).  The two
fractional thresholds of the source, `maxBufferSize * 0.9` and
`buffer.length * 0.8`, are encoded by exact integer arithmetic:
`size > maxBufferSize * 0.9` becomes `10 * size > 9 * maxBufferSize`
(equivalent for integer `size` because `0.9 * 2^20` is not an integer and
the floating-point product lies strictly between the neighbouring integers),
and `Math.floor(len * 0.8)` becomes `len * 8 / 10` (Nat division).
`JSON.stringify`-based size estimation is kept abstract as a function
parameter `es`, since its value never influences control flow beyond the
comparisons that are modelled.  `uuidv4` batch ids, the `metadata` record and
the user identity are omitted: they are externally generated opaque data that
no claim inspects.  Compression is dead code under the hard-wired
`useCompression = false` configuration and is therefore not modelled.
-/

/-- A JavaScript value as far as the console-payload inspection cares:
either a string or some non-string value. -/
inductive JsVal where
  | str : String → JsVal
  | nonString : JsVal
deriving DecidableEq, Repr

/-- The `data` member of an rrweb event, restricted to the fields inspected
by `EventBuffer.isInternalSdkLog`: `data.plugin` (present only on plugin
events) and `data.payload.payload` (the console-argument array; `none` models
a missing or non-array value). -/
structure EventData where
  plugin : Option String := none
  payloadArgs : Option (List JsVal) := none
deriving DecidableEq, Repr

/-- An event record (`EventType = eventWithTime | NetworkRequest` in
`types/index.ts`), restricted to the fields the embedded operations read. -/
structure EventType where
  type : Nat
  data : EventData := {}
deriving DecidableEq, Repr

/-- Does `sub` occur at the start of the character list? (Structural helper
for the JS string predicates; kept executable by kernel reduction.) -/
def leadsWith : List Char → List Char → Bool
  | [], _ => true
  | _ :: _, [] => false
  | a :: as, b :: bs => a == b && leadsWith as bs

/-- Does `sub` occur as a contiguous run somewhere in the list? -/
def occursIn (sub : List Char) : List Char → Bool
  | [] => leadsWith sub []
  | b :: bs => leadsWith sub (b :: bs) || occursIn sub bs

/-- JS `String.prototype.includes`: substring containment. -/
def strIncludes (s sub : String) : Bool :=
  occursIn sub.data s.data

/-- JS `String.prototype.toLowerCase` (over the character list). -/
def lowerStr (s : String) : String :=
  ⟨s.data.map Char.toLower⟩

/-- Modelled from the spec: the console-capture plugin's name
(`CONSOLE_LOG_PLUGIN_NAME`), exported by `src/common/defaults.ts` which is
not among the provided sources.  Only its identity matters, never its
spelling. -/
def CONSOLE_LOG_PLUGIN_NAME : String := "rrweb/console@1"

/-- Modelled from the spec: `SEVEN_MEGABYTES` from `src/common/defaults.ts`
(missing from the provided sources).  The spec gives the batch-split cap as
"≈7 MB" and the hard drop threshold as `140 MiB = SEVEN_MEGABYTES * 20`,
fixing the value `7 * 2^20`. -/
def SEVEN_MEGABYTES : Nat := 7 * 1024 * 1024

/-- `EventBuffer.isInternalSdkLog`: a console-plugin record (rrweb type 6)
whose first console argument is a string containing `"[SDK]"`. -/
def isInternalSdkLog (e : EventType) : Bool :=
  if e.type = 6 ∧ e.data.plugin = some CONSOLE_LOG_PLUGIN_NAME then
    match e.data.payloadArgs with
    | some (JsVal.str firstArg :: _) => strIncludes firstArg "[SDK]"
    | _ => false
  else false

/-- The fields of `InternalBufferConfig` fixed by the `EventBuffer`
constructor (persistence fields omitted; persistence is not modelled). -/
def maxBufferSize : Nat := 1024 * 1024

/-- `flushInterval` is only used to arm timers and plays no role here;
`maxBufferAge` gates the age-based flush trigger. -/
def maxBufferAge : Nat := 300000

/-- Initial backoff interval (ms). -/
def backoffInterval : Nat := 5000

/-- Maximum backoff interval (ms). -/
def maxBackoffInterval : Nat := 300000

/-- The mutable state of an `EventBuffer` instance (timer handles and the
unload-handler flag omitted; they carry no data).  `lastBatchEndTime = none`
models the `undefined` initial value. -/
structure BufferState where
  buffer : List EventType
  bufferSize : Nat
  lastFlushTime : Nat
  sessionId : String
  startTime : Nat
  isFlushInProgress : Bool
  flushFailures : Nat
  backoffUntil : Nat
  lastBatchEndTime : Option Nat
deriving DecidableEq, Repr

/-- JS `a || b` where `a` is an optional number: falls through to `b` when
`a` is `undefined` or `0` (both falsy). -/
def jsOrNat : Option Nat → Nat → Nat
  | none, b => b
  | some 0, b => b
  | some (n + 1), _ => n + 1

/-- JS `arr.slice(-k)`: the last `k` elements, except that `k = 0` yields the
whole array (`slice(-0)` is `slice(0)`). -/
def jsSliceLast (l : List EventType) (k : Nat) : List EventType :=
  if k = 0 then l else l.drop (l.length - k)

/-- The snapshot handed to `onFlush` by `EventBuffer.flush` (uuid `batchId`,
`metadata` and `userIdentity` omitted as opaque). -/
structure SnapshotBuffer where
  isSessionEnded : Bool
  sessionId : String
  startTime : Nat
  endTime : Nat
  size : Nat
  data : List EventType
deriving DecidableEq, Repr

/-- `EventBuffer.addEvent`, parametrised by the size estimator `es` and the
clock reading `now`.  Returns the new state and whether a flush was scheduled
via `scheduleIdleTask`.  (`sessionManager.updateActivity` touches no buffer
state and is not modelled.) -/
def addEvent (es : EventType → Nat) (now : Nat) (e : EventType)
    (st : BufferState) : BufferState × Bool :=
  if isInternalSdkLog e then (st, false)
  else
    let eventSize := es e
    let buffer' := st.buffer ++ [e]
    let bufferSize' := st.bufferSize + eventSize
    -- `bufferSize > maxBufferSize * 0.9` encoded exactly over integers.
    let shouldAttemptFlush :=
      decide (10 * bufferSize' > 9 * maxBufferSize) ||
      decide (now - st.lastFlushTime > maxBufferAge)
    let scheduled :=
      shouldAttemptFlush && !st.isFlushInProgress && decide (now > st.backoffUntil)
    ({ st with buffer := buffer', bufferSize := bufferSize' }, scheduled)

/-- `EventBuffer.addEvents`: fold `addEvent` over the list. -/
def addEvents (es : EventType → Nat) (now : Nat) (events : List EventType)
    (st : BufferState) : BufferState :=
  events.foldl (fun s e => (addEvent es now e s).1) st

/-- `EventBuffer.flush(isSessionEnded)`.  `ok` abstracts whether the awaited
`onFlush` resolved or rejected.  Returns the final state and the snapshot
submitted to `onFlush` (`none` when the call returned without submitting).
The `isFlushInProgress` flag is set on entry and cleared in the `finally`
block, so in this atomic model it is unchanged at exit. -/
def flush (es : EventType → Nat) (now : Nat) (isSessionEnded : Bool)
    (ok : Bool) (st : BufferState) : BufferState × Option SnapshotBuffer :=
  if st.buffer.length = 0 ∨ st.isFlushInProgress then (st, none)
  else if now < st.backoffUntil ∧ ¬isSessionEnded then (st, none)
  else
    let batchStartTime := jsOrNat st.lastBatchEndTime st.startTime
    let snapshot : SnapshotBuffer :=
      { isSessionEnded := isSessionEnded
        sessionId := st.sessionId
        startTime := batchStartTime
        endTime := now
        size := st.bufferSize
        data := st.buffer }
    if ok then
      ({ st with buffer := [], bufferSize := 0, lastFlushTime := now,
                 flushFailures := 0, backoffUntil := 0,
                 lastBatchEndTime := some now }, some snapshot)
    else
      let failures := st.flushFailures + 1
      let backoffTime := min (backoffInterval * 2 ^ (failures - 1)) maxBackoffInterval
      let st1 := { st with flushFailures := failures,
                           backoffUntil := now + backoffTime }
      if st1.bufferSize > SEVEN_MEGABYTES * 20 then
        let eventsToKeep := st1.buffer.length * 8 / 10
        let kept := jsSliceLast st1.buffer eventsToKeep
        ({ st1 with buffer := kept,
                    bufferSize := kept.foldl (fun size e => size + es e) 0 },
         some snapshot)
      else (st1, some snapshot)

/-- The `SnapshotBuffer` shape used by `splitBuffer` in
`utils/sessionrecording-utils.ts`: the recursive calls construct exactly the
fields `size`, `data`, `sessionId`, `startTime`. -/
structure LegacySnapshotBuffer where
  size : Nat
  data : List EventType
  sessionId : String
  startTime : Nat
deriving DecidableEq, Repr

/-- `splitBuffer` from `utils/sessionrecording-utils.ts`: recursively halves
a buffer whose `size` meets or exceeds `sizeLimit` and still has at least two
events, re-estimating each half's size from its own slice via `es`
(`estimateSize` applied to the event-array slice). -/
def splitBuffer (es : List EventType → Nat) (sizeLimit : Nat)
    (buffer : LegacySnapshotBuffer) : List LegacySnapshotBuffer :=
  if buffer.size ≥ sizeLimit ∧ buffer.data.length > 1 then
    let half := buffer.data.length / 2
    let firstHalf := buffer.data.take half
    let secondHalf := buffer.data.drop half
    splitBuffer es sizeLimit
        { size := es firstHalf, data := firstHalf,
          sessionId := buffer.sessionId, startTime := buffer.startTime } ++
    splitBuffer es sizeLimit
        { size := es secondHalf, data := secondHalf,
          sessionId := buffer.sessionId, startTime := buffer.startTime }
  else [buffer]
termination_by buffer.data.length
decreasing_by
  · simp only [List.length_take]
    omega
  · simp only [List.length_drop]
    omega

/-- The error object caught by `ApiService.getUploadBufferUrl`, restricted to
the fields it inspects: whether it is an `AxiosError`, `response?.status` and
`response?.data.detail`. -/
structure AxiosFailure where
  isAxiosError : Bool
  status : Option Nat
  detail : Option String
deriving DecidableEq, Repr

/-- Outcome of the GET to `{apiUrl}/r/{sessionId}/batch`: either the response
(whose `data.url` the method returns) or a thrown error. -/
inductive GetBatchOutcome where
  | success (url : String)
  | failure (e : AxiosFailure)
deriving DecidableEq, Repr

/-- `ApiService.getUploadBufferUrl`: returns the pre-signed URL, `null`
(`Except.ok none`) for an AxiosError with status 400 and detail
`"processing already started"`, and re-throws every other error. -/
def getUploadBufferUrl (o : GetBatchOutcome) : Except AxiosFailure (Option String) :=
  match o with
  | .success url => .ok (some url)
  | .failure e =>
      if e.isAxiosError = true ∧ e.status = some 400 ∧
         e.detail = some "processing already started" then .ok none
      else .error e

/-- The observable HTTP side effects of `ApiService.sendEvents`. -/
inductive ApiAction where
  | putBatch (url : String) (b : SnapshotBuffer)
  | processSession (sessionId : String)
deriving DecidableEq, Repr

/-- `ApiService.sendEvents`: get the upload URL (propagating its error);
return with no requests when the URL is falsy (`!url`, i.e. `null` or the
empty string); otherwise PUT the batch and, when `isSessionEnded`, trigger
`processSession` (whose own errors the source swallows). -/
def sendEvents (o : GetBatchOutcome) (buffer : SnapshotBuffer) :
    Except AxiosFailure (List ApiAction) :=
  match getUploadBufferUrl o with
  | .error e => .error e
  | .ok none => .ok []
  | .ok (some url) =>
      if url = "" then .ok []
      else .ok ([ApiAction.putBatch url buffer] ++
        (if buffer.isSessionEnded then [ApiAction.processSession buffer.sessionId] else []))

/-- The upload pipeline of `Core.stop()` for the in-memory buffer: the
terminal `flush(true)` hands its snapshot (if any) to `sendBufferToServer`,
which calls `ApiService.sendEvents`; this returns the HTTP requests that
pipeline performs.  `ok` abstracts the flush outcome, `o` the outcome of the
batch-URL GET. -/
def stopFlushActions (es : EventType → Nat) (now : Nat) (ok : Bool)
    (o : GetBatchOutcome) (st : BufferState) : List ApiAction :=
  match (flush es now true ok st).2 with
  | none => []
  | some b =>
      match sendEvents o b with
      | .ok acts => acts
      | .error _ => []

/-- The three global request dispatchers `NetworkMonitor` patches:
`window.fetch`, `XMLHttpRequest.prototype.open`,
`XMLHttpRequest.prototype.send`.  `H` is the abstract type of handler
values. -/
structure NetGlobals (H : Type) where
  fetch : H
  xhrOpen : H
  xhrSend : H
deriving DecidableEq, Repr

/-- The interception state of a `NetworkMonitor` instance: the originals
captured by the constructor plus the `isEnabled` flag. -/
structure NetworkMonitorState (H : Type) where
  originalFetch : H
  originalXHROpen : H
  originalXHRSend : H
  isEnabled : Bool
deriving DecidableEq, Repr

/-- The `NetworkMonitor` constructor: captures the current globals into
`originalFetch`/`originalXHROpen`/`originalXHRSend`, `isEnabled = false`. -/
def NetworkMonitor.construct {H : Type} (g : NetGlobals H) : NetworkMonitorState H :=
  { originalFetch := g.fetch, originalXHROpen := g.xhrOpen,
    originalXHRSend := g.xhrSend, isEnabled := false }

/-- `NetworkMonitor.enable`: no-op when already enabled; otherwise
`patchFetch`/`patchXHR` install freshly created wrapper closures (`wrapped`)
as the globals and set `isEnabled`. -/
def NetworkMonitor.enable {H : Type} (wrapped : NetGlobals H)
    (m : NetworkMonitorState H) (g : NetGlobals H) :
    NetworkMonitorState H × NetGlobals H :=
  if m.isEnabled then (m, g)
  else ({ m with isEnabled := true }, wrapped)

/-- `NetworkMonitor.disable`: no-op when not enabled; otherwise writes the
construction-time originals back into the globals and clears `isEnabled`. -/
def NetworkMonitor.disable {H : Type} (m : NetworkMonitorState H)
    (g : NetGlobals H) : NetworkMonitorState H × NetGlobals H :=
  if !m.isEnabled then (m, g)
  else ({ m with isEnabled := false },
        { fetch := m.originalFetch, xhrOpen := m.originalXHROpen,
          xhrSend := m.originalXHRSend })

/-- Environment steps interleaved with the monitor's life: an `enable` call
(with the wrapper closures it would install), a `disable` call, or foreign
code re-assigning the globals. -/
inductive NetAction (H : Type) where
  | enable (wrapped : NetGlobals H)
  | disable
  | rewrap (g : NetGlobals H)
deriving DecidableEq, Repr

/-- Run a sequence of `NetAction`s over the monitor state and the globals. -/
def runNetActions {H : Type} :
    List (NetAction H) → NetworkMonitorState H × NetGlobals H →
    NetworkMonitorState H × NetGlobals H
  | [], s => s
  | .enable w :: rest, (m, g) => runNetActions rest (NetworkMonitor.enable w m g)
  | .disable :: rest, (m, g) => runNetActions rest (NetworkMonitor.disable m g)
  | .rewrap g' :: rest, (m, _) => runNetActions rest (m, g')

/-- Default `sanitizeParams` configuration of `NetworkMonitor`. -/
def sanitizeParamsDefault : List String :=
  ["password", "token", "secret", "key", "apikey", "api_key", "access_token"]

/-- `NetworkMonitor.shouldSanitizeParam`: the parameter name contains
(case-insensitively) some configured token. -/
def shouldSanitizeParam (cfg : List String) (param : String) : Bool :=
  cfg.any (fun pat => strIncludes (lowerStr param) (lowerStr pat))

/-- WHATWG `URLSearchParams.set(name, value)` over the ordered key-value
list: the first pair whose name equals `name` gets its value set and every
later pair with that name is removed; if no pair has that name, the pair is
appended. -/
def jsSearchParamsSet (l : List (String × String)) (name value : String) :
    List (String × String) :=
  match l with
  | [] => [(name, value)]
  | kv :: rest =>
      if kv.1 = name then
        (kv.1, value) :: rest.filter (fun p => decide (p.1 ≠ name))
      else kv :: jsSearchParamsSet rest name value

/-- `set` never lengthens the list when the name is already present. -/
theorem jsSearchParamsSet_length_le (name value : String) :
    ∀ l : List (String × String), (∃ kv ∈ l, kv.1 = name) →
    (jsSearchParamsSet l name value).length ≤ l.length := by
  intro l
  induction l with
  | nil => rintro ⟨kv, hkv, _⟩; cases hkv
  | cons kv rest ih =>
    rintro ⟨kv2, hkv2, hname⟩
    rw [jsSearchParamsSet]
    by_cases h : kv.1 = name
    · rw [if_pos h]
      have := List.length_filter_le (fun p : String × String => decide (p.1 ≠ name)) rest
      simp only [List.length_cons]
      omega
    · rw [if_neg h]
      simp only [List.length_cons]
      have hmem : kv2 ∈ rest := by
        rcases List.mem_cons.mp hkv2 with h2 | h2
        · exact absurd (h2 ▸ hname) h
        · exact h2
      have := ih ⟨kv2, hmem, hname⟩
      omega

/-- The `for (const [key] of params.entries())` loop of
`NetworkMonitor.sanitizeUrl`.  The `URLSearchParams` iterator is index-based
over the live list, so mutation by `set` is visible to it: each round reads
the pair at the current index of the *current* list, calls
`params.set(key, "[REDACTED]")` when the key matches, and advances the index
by one; the returned flag is the `sanitized` latch. -/
def sanitizeParamsLoop (cfg : List String) (l : List (String × String)) (i : Nat) :
    List (String × String) × Bool :=
  if h : i < l.length then
    if shouldSanitizeParam cfg (l.get ⟨i, h⟩).1 then
      ((sanitizeParamsLoop cfg
          (jsSearchParamsSet l (l.get ⟨i, h⟩).1 "[REDACTED]") (i + 1)).1, true)
    else
      sanitizeParamsLoop cfg l (i + 1)
  else (l, false)
termination_by l.length - i
decreasing_by
  · have := jsSearchParamsSet_length_le (l.get ⟨i, h⟩).1 "[REDACTED]" l
      ⟨l.get ⟨i, h⟩, List.get_mem l i h, rfl⟩
    omega
  · omega

/-- Functional characterisation of the loop, proven equal to it below: the
first parameter with a matched name is redacted and its later duplicates are
dropped (the effect of `URLSearchParams.set`); unmatched parameters pass
through. -/
def redactParams (cfg : List String) : List (String × String) → List (String × String)
  | [] => []
  | kv :: rest =>
      if shouldSanitizeParam cfg kv.1 then
        (kv.1, "[REDACTED]") :: redactParams cfg (rest.filter (fun p => decide (p.1 ≠ kv.1)))
      else kv :: redactParams cfg rest
termination_by l => l.length
decreasing_by
  · have := List.length_filter_le (fun p : String × String => decide (p.1 ≠ kv.1)) rest
    simp only [List.length_cons]
    omega
  · simp [List.length_cons]

/-- `NetworkMonitor.sanitizeUrl`, with the host URL machinery abstracted:
`parseURL` models the `new URL`/`new URLSearchParams(urlObj.search)` parse
(`none` = the constructor threw) and `serializeURL` models
`urlObj.search = params.toString(); urlObj.toString()`.  When parsing fails,
or when no parameter matched (`sanitized` stays false), the original string
is returned. -/
def sanitizeUrl (cfg : List String) (parseURL : String → Option (List (String × String)))
    (serializeURL : List (String × String) → String) (url : String) : String :=
  match parseURL url with
  | none => url
  | some params =>
      let r := sanitizeParamsLoop cfg params 0
      if r.2 then serializeURL r.1 else url

/-- C2: `EventBuffer.flush(isSessionEnded)` submits a batch to `onFlush` only
when no flush is already in progress and, unless `isSessionEnded = true`,
only when the backoff deadline has passed; every call arriving while
`isFlushInProgress` is true, or while `now < backoffUntil` with
`isSessionEnded = false`, returns without submitting and without changing
state. -/
theorem flush_gating (es : EventType → Nat) (now : Nat) (ended ok : Bool)
    (st : BufferState) :
    ((flush es now ended ok st).2.isSome = true →
      st.isFlushInProgress = false ∧ (ended = true ∨ st.backoffUntil ≤ now))
    ∧ (st.isFlushInProgress = true → flush es now ended ok st = (st, none))
    ∧ (now < st.backoffUntil → ended = false → flush es now ended ok st = (st, none)) := by
  unfold flush
  refine ⟨?_, ?_, ?_⟩
  · intro h
    split at h
    · simp at h
    · split at h
      · simp at h
      · rename_i hg1 hg2
        push_neg at hg1 hg2
        refine ⟨by simpa using hg1.2, ?_⟩
        by_cases he : ended = true
        · exact Or.inl he
        · have : ¬ now < st.backoffUntil := fun hlt =>
            (by simpa [he] using hg2 hlt : False)
          exact Or.inr (Nat.le_of_not_lt this)
  · intro h
    rw [if_pos (Or.inr h)]
  · intro hlt he
    split
    · rfl
    · rw [if_pos ⟨hlt, by simp [he]⟩]

/-- Witness for `flush_gating`: a busy buffer state swallows the call. -/
def stBusy : BufferState :=
  { buffer := [⟨2, {}⟩], bufferSize := 5, lastFlushTime := 0, sessionId := "s",
    startTime := 0, isFlushInProgress := true, flushFailures := 0,
    backoffUntil := 0, lastBatchEndTime := none }

theorem flush_gating_witness :
    flush (fun _ => 5) 40 false true stBusy = (stBusy, none) :=
  (flush_gating (fun _ => 5) 40 false true stBusy).2.1 rfl

/-- C10: calling `flush` on an empty buffer returns immediately, submitting
nothing and changing no state, even for the terminal `flush(true)`; hence
the `Core.stop()` upload pipeline performs no HTTP request at all (no batch
PUT and no `/process` trigger) when the buffer is empty. -/
theorem flush_empty_buffer_noop (es : EventType → Nat) (now : Nat)
    (ended ok : Bool) (st : BufferState) (h : st.buffer = []) :
    flush es now ended ok st = (st, none)
    ∧ ∀ o : GetBatchOutcome, stopFlushActions es now ok o st = [] := by
  have hlen : st.buffer.length = 0 := by simp [h]
  constructor
  · unfold flush
    rw [if_pos (Or.inl hlen)]
  · intro o
    unfold stopFlushActions flush
    rw [if_pos (Or.inl hlen)]

/-- Witness for `flush_empty_buffer_noop`. -/
def stEmpty : BufferState :=
  { buffer := [], bufferSize := 0, lastFlushTime := 0, sessionId := "s",
    startTime := 100, isFlushInProgress := false, flushFailures := 0,
    backoffUntil := 0, lastBatchEndTime := none }

theorem flush_empty_buffer_noop_witness :
    flush (fun _ => 1) 500 true true stEmpty = (stEmpty, none)
    ∧ stopFlushActions (fun _ => 1) 500 true (GetBatchOutcome.success "u") stEmpty = [] := by
  have h := flush_empty_buffer_noop (fun _ => 1) 500 true true stEmpty rfl
  exact ⟨h.1, h.2 _⟩

/-- C6: `getUploadBufferUrl` yields `null` exactly for an `AxiosError` with
HTTP status 400 and body detail `"processing already started"`; every other
error is re-thrown unchanged; and `sendEvents` performs no request at all
(in particular no PUT) when the URL comes back `null`. -/
theorem getUploadBufferUrl_terminal_skip (o : GetBatchOutcome) (b : SnapshotBuffer) :
    (getUploadBufferUrl o = .ok none ↔
      ∃ e : AxiosFailure, o = .failure e ∧ e.isAxiosError = true ∧
        e.status = some 400 ∧ e.detail = some "processing already started")
    ∧ (∀ e : AxiosFailure, o = .failure e →
        ¬(e.isAxiosError = true ∧ e.status = some 400 ∧
          e.detail = some "processing already started") →
        getUploadBufferUrl o = .error e)
    ∧ (getUploadBufferUrl o = .ok none → sendEvents o b = .ok []) := by
  refine ⟨?_, ?_, ?_⟩
  · cases o with
    | success url => simp [getUploadBufferUrl]
    | failure e =>
      by_cases hc : e.isAxiosError = true ∧ e.status = some 400 ∧
          e.detail = some "processing already started"
      · simp only [getUploadBufferUrl, if_pos hc]
        exact ⟨fun _ => ⟨e, rfl, hc.1, hc.2.1, hc.2.2⟩, fun _ => trivial⟩
      · simp only [getUploadBufferUrl, if_neg hc]
        constructor
        · intro h
          exact absurd h (by simp)
        · rintro ⟨e', he', h1, h2, h3⟩
          cases (by injection he' : e = e')
          exact absurd ⟨h1, h2, h3⟩ hc
  · intro e he hc
    subst he
    simp only [getUploadBufferUrl, if_neg hc]
  · intro h
    unfold sendEvents
    rw [h]

/-- Witness for `getUploadBufferUrl_terminal_skip`. -/
def axiosTerminal : AxiosFailure :=
  { isAxiosError := true, status := some 400,
    detail := some "processing already started" }

/-- A concrete terminal batch used by the C6 witness. -/
def snapshotDemo : SnapshotBuffer :=
  { isSessionEnded := true, sessionId := "s", startTime := 0, endTime := 1,
    size := 10, data := [⟨1, {}⟩] }

theorem getUploadBufferUrl_terminal_skip_witness :
    getUploadBufferUrl (.failure axiosTerminal) = .ok none
    ∧ sendEvents (.failure axiosTerminal) snapshotDemo = .ok [] := by
  have h := getUploadBufferUrl_terminal_skip (.failure axiosTerminal) snapshotDemo
  have h1 : getUploadBufferUrl (.failure axiosTerminal) = .ok none :=
    h.1.mpr ⟨axiosTerminal, rfl, rfl, rfl, rfl⟩
  exact ⟨h1, h.2.2 h1⟩

/-- C3 (amended): when `onFlush` rejects, `flush` increments `flushFailures`
by one and sets `backoffUntil = now + min(backoffInterval * 2^(failures-1),
maxBackoffInterval)`; the buffered events are retained unchanged unless the
buffer size exceeds the hard drop threshold `SEVEN_MEGABYTES * 20`, in which
case the newest `floor(0.8 * n)` of the `n` buffered events are kept — except
that a single-event buffer is always retained whole, because
`floor(0.8 * 1) = 0` and `slice(-0)` returns the entire array. -/
theorem flush_failure_postcondition (es : EventType → Nat) (now : Nat)
    (ended : Bool) (st : BufferState)
    (hne : st.buffer ≠ []) (hip : st.isFlushInProgress = false)
    (hbk : ended = true ∨ st.backoffUntil ≤ now) :
    ((flush es now ended false st).1.flushFailures = st.flushFailures + 1)
    ∧ ((flush es now ended false st).1.backoffUntil =
        now + min (backoffInterval * 2 ^ st.flushFailures) maxBackoffInterval)
    ∧ (st.bufferSize ≤ SEVEN_MEGABYTES * 20 →
        (flush es now ended false st).1.buffer = st.buffer)
    ∧ (SEVEN_MEGABYTES * 20 < st.bufferSize → 2 ≤ st.buffer.length →
        (flush es now ended false st).1.buffer =
          st.buffer.drop (st.buffer.length - st.buffer.length * 8 / 10)
        ∧ (flush es now ended false st).1.buffer.length = st.buffer.length * 8 / 10)
    ∧ (st.buffer.length = 1 → (flush es now ended false st).1.buffer = st.buffer) := by
  have hg1 : ¬(st.buffer.length = 0 ∨ st.isFlushInProgress = true) := by
    simp [hip, List.length_eq_zero, hne]
  have hg2 : ¬(now < st.backoffUntil ∧ ¬ended = true) := by
    rcases hbk with h | h
    · simp [h]
    · intro hcontra
      exact absurd hcontra.1 (Nat.not_lt.mpr h)
  unfold flush
  rw [if_neg hg1, if_neg hg2]
  rw [if_neg (by simp : ¬false = true)]
  dsimp only
  split_ifs with hth
  · refine ⟨rfl, by simp, ?_, ?_, ?_⟩
    · intro hle
      exact absurd hth (by simpa using Nat.not_lt.mpr hle)
    · intro _ hlen
      have hk1 : st.buffer.length * 8 / 10 ≠ 0 := by omega
      have hk2 : st.buffer.length * 8 / 10 ≤ st.buffer.length := by omega
      unfold jsSliceLast
      rw [if_neg hk1]
      exact ⟨rfl, by rw [List.length_drop]; omega⟩
    · intro hlen
      have hk : st.buffer.length * 8 / 10 = 0 := by omega
      unfold jsSliceLast
      rw [hk, if_pos rfl]
  · refine ⟨rfl, by simp, fun _ => rfl, ?_, fun _ => rfl⟩
    intro hgt _
    exact absurd hgt (by simpa using hth)

/-- A buffer holding a single oversized event: the C3 drop clause fires but
keeps the event. -/
def bigEvent : EventType := ⟨3, {}⟩

/-- State for the C3 counterexample: one event, size above the hard drop
threshold. -/
def stOneBig : BufferState :=
  { buffer := [bigEvent], bufferSize := SEVEN_MEGABYTES * 20 + 1,
    lastFlushTime := 0, sessionId := "s", startTime := 0,
    isFlushInProgress := false, flushFailures := 0, backoffUntil := 0,
    lastBatchEndTime := none }

theorem flush_failure_single_event_counterexample :
    SEVEN_MEGABYTES * 20 < stOneBig.bufferSize
    ∧ stOneBig.buffer.length = 1
    ∧ stOneBig.buffer.length * 8 / 10 = 0
    ∧ (flush (fun _ => SEVEN_MEGABYTES * 20 + 1) 7 false false stOneBig).1.buffer
        = [bigEvent] := by
  refine ⟨by norm_num [stOneBig], rfl, rfl, ?_⟩
  rfl

/-- Witness for `flush_failure_postcondition`: a small two-event buffer whose
first failure yields a 5 s backoff and loses nothing. -/
def stFailSmall : BufferState :=
  { buffer := [⟨1, {}⟩, ⟨2, {}⟩], bufferSize := 20, lastFlushTime := 0,
    sessionId := "s", startTime := 0, isFlushInProgress := false,
    flushFailures := 0, backoffUntil := 0, lastBatchEndTime := none }

theorem flush_failure_postcondition_witness :
    (flush (fun _ => 10) 50 false false stFailSmall).1.flushFailures = 1
    ∧ (flush (fun _ => 10) 50 false false stFailSmall).1.backoffUntil = 5050
    ∧ (flush (fun _ => 10) 50 false false stFailSmall).1.buffer = stFailSmall.buffer := by
  have h := flush_failure_postcondition (fun _ => 10) 50 false stFailSmall
    (by simp [stFailSmall]) rfl (Or.inr (by simp [stFailSmall]))
  refine ⟨h.1, ?_, h.2.2.1 (by norm_num [stFailSmall, SEVEN_MEGABYTES])⟩
  have h2 := h.2.1
  norm_num [stFailSmall, backoffInterval, maxBackoffInterval] at h2
  exact h2

/-- The captured originals are never modified after construction, whatever
sequence of enable/disable/foreign-rewrap steps runs. -/
theorem runNetActions_originals {H : Type} (acts : List (NetAction H)) :
    ∀ (m : NetworkMonitorState H) (g : NetGlobals H),
    (runNetActions acts (m, g)).1.originalFetch = m.originalFetch
    ∧ (runNetActions acts (m, g)).1.originalXHROpen = m.originalXHROpen
    ∧ (runNetActions acts (m, g)).1.originalXHRSend = m.originalXHRSend := by
  induction acts with
  | nil => intro m g; exact ⟨rfl, rfl, rfl⟩
  | cons a rest ih =>
    intro m g
    cases a with
    | enable w =>
      simp only [runNetActions, NetworkMonitor.enable]
      by_cases h : m.isEnabled
      · simp only [h, if_true]
        exact ih m g
      · simp only [h, Bool.false_eq_true, if_false]
        simpa using ih { m with isEnabled := true } w
    | disable =>
      simp only [runNetActions, NetworkMonitor.disable]
      by_cases h : m.isEnabled
      · simp only [h, Bool.not_true, Bool.false_eq_true, if_false]
        simpa using ih { m with isEnabled := false }
          ⟨m.originalFetch, m.originalXHROpen, m.originalXHRSend⟩
      · simp only [h, Bool.not_false, if_true]
        exact ih m g
    | rewrap gNew =>
      simp only [runNetActions]
      exact ih m gNew

/-- C7: for every interleaving of `enable`/`disable` calls (and even foreign
re-wrapping of the globals), calling `disable()` while the monitor is enabled
restores `window.fetch`, `XMLHttpRequest.prototype.open` and
`XMLHttpRequest.prototype.send` to exactly the values captured at
construction; `enable` on an enabled monitor and `disable` on a disabled
monitor are no-ops. -/
theorem networkMonitor_disable_restores {H : Type} (g0 : NetGlobals H)
    (acts : List (NetAction H)) :
    ((runNetActions acts (NetworkMonitor.construct g0, g0)).1.isEnabled = true →
      (NetworkMonitor.disable
        (runNetActions acts (NetworkMonitor.construct g0, g0)).1
        (runNetActions acts (NetworkMonitor.construct g0, g0)).2).2 = g0)
    ∧ ((runNetActions acts (NetworkMonitor.construct g0, g0)).1.isEnabled = true →
      ∀ w, NetworkMonitor.enable w
        (runNetActions acts (NetworkMonitor.construct g0, g0)).1
        (runNetActions acts (NetworkMonitor.construct g0, g0)).2 =
        ((runNetActions acts (NetworkMonitor.construct g0, g0)).1,
         (runNetActions acts (NetworkMonitor.construct g0, g0)).2))
    ∧ ((runNetActions acts (NetworkMonitor.construct g0, g0)).1.isEnabled = false →
      NetworkMonitor.disable
        (runNetActions acts (NetworkMonitor.construct g0, g0)).1
        (runNetActions acts (NetworkMonitor.construct g0, g0)).2 =
        ((runNetActions acts (NetworkMonitor.construct g0, g0)).1,
         (runNetActions acts (NetworkMonitor.construct g0, g0)).2)) := by
  obtain ⟨ho1, ho2, ho3⟩ :=
    runNetActions_originals acts (NetworkMonitor.construct g0) g0
  refine ⟨?_, ?_, ?_⟩
  · intro hen
    unfold NetworkMonitor.disable
    rw [hen]
    simp only [Bool.not_true, Bool.false_eq_true, if_false]
    rw [ho1, ho2, ho3]
    rfl
  · intro hen w
    unfold NetworkMonitor.enable
    rw [hen]
    simp
  · intro hdis
    unfold NetworkMonitor.disable
    rw [hdis]
    simp

theorem networkMonitor_disable_restores_witness :
    (NetworkMonitor.disable
      (runNetActions [NetAction.enable ⟨7, 8, 9⟩]
        (NetworkMonitor.construct (⟨1, 2, 3⟩ : NetGlobals Nat), ⟨1, 2, 3⟩)).1
      (runNetActions [NetAction.enable ⟨7, 8, 9⟩]
        (NetworkMonitor.construct (⟨1, 2, 3⟩ : NetGlobals Nat), ⟨1, 2, 3⟩)).2).2
    = ⟨1, 2, 3⟩ :=
  (networkMonitor_disable_restores ⟨1, 2, 3⟩ [NetAction.enable ⟨7, 8, 9⟩]).1 rfl

/-- Prepending pairs whose names differ from `name` commutes with `set`:
`set` acts at the first occurrence and filters the tail. -/
theorem jsSet_first_at (name value : String) :
    ∀ (pre : List (String × String)) (suf : List (String × String))
      (kv0 : String × String),
    kv0.1 = name →
    (∀ kv ∈ pre, kv.1 ≠ name) →
    jsSearchParamsSet (pre ++ kv0 :: suf) name value
      = pre ++ (name, value) :: suf.filter (fun p => decide (p.1 ≠ name)) := by
  intro pre
  induction pre with
  | nil =>
    intro suf kv0 hk _
    simp only [List.nil_append]
    rw [jsSearchParamsSet]
    rw [if_pos hk, hk]
  | cons p pre2 ih =>
    intro suf kv0 hk hpre
    simp only [List.cons_append]
    rw [jsSearchParamsSet]
    rw [if_neg (hpre p (List.mem_cons_self p pre2))]
    rw [ih suf kv0 hk (fun kv hkv => hpre kv (List.mem_cons_of_mem p hkv))]

/-- Taking one past a length-`A` prefix keeps the head of the tail. -/
theorem take_len_append_cons {A : List (String × String)} (x : String × String)
    (B : List (String × String)) :
    (A ++ x :: B).take (A.length + 1) = A ++ [x] := by
  rw [List.take_append 1, List.take_succ_cons, List.take_zero]

/-- Dropping one past a length-`A` prefix leaves the tail of the tail. -/
theorem drop_len_append_cons {A : List (String × String)} (x : String × String)
    (B : List (String × String)) :
    (A ++ x :: B).drop (A.length + 1) = B := by
  rw [List.drop_append 1, List.drop_succ_cons, List.drop_zero]

/-- Simulation of the live-iterator loop: when no already-visited matched
parameter has a remaining duplicate (true initially, maintained by `set`
deleting duplicates), the loop rewrites the unvisited region exactly as
`redactParams`, and its `sanitized` flag is true iff some unvisited
parameter matches. -/
theorem sanitizeParamsLoop_eq (cfg : List String) :
    ∀ (n : Nat) (l : List (String × String)) (i : Nat),
    l.length - i ≤ n →
    (∀ kv ∈ l.take i, shouldSanitizeParam cfg kv.1 = true →
      ∀ kv2 ∈ l.drop i, kv2.1 ≠ kv.1) →
    sanitizeParamsLoop cfg l i
      = (l.take i ++ redactParams cfg (l.drop i),
         decide (∃ kv ∈ l.drop i, shouldSanitizeParam cfg kv.1 = true)) := by
  intro n
  induction n with
  | zero =>
    intro l i hfuel _
    have hle : l.length ≤ i := by omega
    rw [sanitizeParamsLoop, dif_neg (by omega)]
    rw [List.take_of_length_le hle, List.drop_eq_nil_of_le hle]
    rw [redactParams]
    simp
  | succ n ih =>
    intro l i hfuel hinv
    by_cases hi : i < l.length
    · rw [sanitizeParamsLoop, dif_pos hi]
      have hAlen : (l.take i).length = i := by
        rw [List.length_take]
        omega
      have hdrop : l.drop i = l.get ⟨i, hi⟩ :: l.drop (i + 1) :=
        List.drop_eq_get_cons hi
      have hdroplen : (l.drop (i + 1)).length = l.length - (i + 1) :=
        List.length_drop (i + 1) l
      by_cases hm : shouldSanitizeParam cfg (l.get ⟨i, hi⟩).1 = true
      · rw [if_pos hm]
        have hfirstA : ∀ kv ∈ l.take i, kv.1 ≠ (l.get ⟨i, hi⟩).1 := by
          intro kv hkv heq
          have hkvm : shouldSanitizeParam cfg kv.1 = true := by
            rw [heq]
            exact hm
          have hne := hinv kv hkv hkvm (l.get ⟨i, hi⟩)
            (by rw [hdrop]; exact List.mem_cons_self _ _)
          exact hne heq.symm
        have hset : jsSearchParamsSet l (l.get ⟨i, hi⟩).1 "[REDACTED]"
            = l.take i ++ ((l.get ⟨i, hi⟩).1, "[REDACTED]")
                :: (l.drop (i + 1)).filter
                    (fun p => decide (p.1 ≠ (l.get ⟨i, hi⟩).1)) := by
          have hx := jsSet_first_at (l.get ⟨i, hi⟩).1 "[REDACTED]"
            (l.take i) (l.drop (i + 1)) (l.get ⟨i, hi⟩) rfl hfirstA
          rw [← hdrop, List.take_append_drop] at hx
          exact hx
        rw [hset]
        have hflen := List.length_filter_le
          (fun p : String × String => decide (p.1 ≠ (l.get ⟨i, hi⟩).1)) (l.drop (i + 1))
        have htake2 : (l.take i ++ ((l.get ⟨i, hi⟩).1, "[REDACTED]")
              :: (l.drop (i + 1)).filter
                  (fun p => decide (p.1 ≠ (l.get ⟨i, hi⟩).1))).take (i + 1)
            = l.take i ++ [((l.get ⟨i, hi⟩).1, "[REDACTED]")] := by
          have h := take_len_append_cons ((l.get ⟨i, hi⟩).1, "[REDACTED]")
            ((l.drop (i + 1)).filter (fun p => decide (p.1 ≠ (l.get ⟨i, hi⟩).1)))
            (A := l.take i)
          rw [hAlen] at h
          exact h
        have hdrop2 : (l.take i ++ ((l.get ⟨i, hi⟩).1, "[REDACTED]")
              :: (l.drop (i + 1)).filter
                  (fun p => decide (p.1 ≠ (l.get ⟨i, hi⟩).1))).drop (i + 1)
            = (l.drop (i + 1)).filter
                (fun p => decide (p.1 ≠ (l.get ⟨i, hi⟩).1)) := by
          have h := drop_len_append_cons ((l.get ⟨i, hi⟩).1, "[REDACTED]")
            ((l.drop (i + 1)).filter (fun p => decide (p.1 ≠ (l.get ⟨i, hi⟩).1)))
            (A := l.take i)
          rw [hAlen] at h
          exact h
        have hrec := ih (l.take i ++ ((l.get ⟨i, hi⟩).1, "[REDACTED]")
              :: (l.drop (i + 1)).filter
                  (fun p => decide (p.1 ≠ (l.get ⟨i, hi⟩).1))) (i + 1)
          (by
            simp only [List.length_append, List.length_cons, hAlen]
            omega)
          (by
            intro kv hkv hkvm kv2 hkv2
            rw [htake2] at hkv
            rw [hdrop2] at hkv2
            rcases List.mem_append.mp hkv with hkA | hkX
            · have hkv2mem : kv2 ∈ l.drop i := by
                rw [hdrop]
                exact List.mem_cons_of_mem _ (List.mem_filter.mp hkv2).1
              exact hinv kv hkA hkvm kv2 hkv2mem
            · rw [List.mem_singleton] at hkX
              subst hkX
              have hpred := (List.mem_filter.mp hkv2).2
              simpa using hpred)
        rw [hrec, htake2, hdrop2]
        have hredact : redactParams cfg (l.drop i)
            = ((l.get ⟨i, hi⟩).1, "[REDACTED]")
                :: redactParams cfg ((l.drop (i + 1)).filter
                    (fun p => decide (p.1 ≠ (l.get ⟨i, hi⟩).1))) := by
          rw [hdrop, redactParams, if_pos hm]
        rw [hredact]
        simp only [Prod.mk.injEq]
        constructor
        · rw [List.append_assoc]
          rfl
        · exact (decide_eq_true
            ⟨l.get ⟨i, hi⟩, by rw [hdrop]; exact List.mem_cons_self _ _, hm⟩).symm
      · rw [if_neg hm]
        have htake : l.take (i + 1) = l.take i ++ [l.get ⟨i, hi⟩] := by
          rw [List.take_succ]
          rw [List.getElem?_eq_getElem hi]
          rfl
        have hrec := ih l (i + 1) (by omega)
          (by
            intro kv hkv hkvm kv2 hkv2
            rw [htake] at hkv
            rcases List.mem_append.mp hkv with hkA | hkX
            · have hkv2mem : kv2 ∈ l.drop i := by
                rw [hdrop]
                exact List.mem_cons_of_mem _ hkv2
              exact hinv kv hkA hkvm kv2 hkv2mem
            · rw [List.mem_singleton] at hkX
              subst hkX
              exact absurd hkvm hm)
        rw [hrec]
        have hredact : redactParams cfg (l.drop i)
            = l.get ⟨i, hi⟩ :: redactParams cfg (l.drop (i + 1)) := by
          rw [hdrop, redactParams, if_neg hm]
        rw [hredact, htake]
        simp only [Prod.mk.injEq]
        constructor
        · rw [List.append_assoc]
          rfl
        · refine decide_eq_decide.mpr ?_
          constructor
          · rintro ⟨kv, hkv, hp⟩
            exact ⟨kv, by rw [hdrop]; exact List.mem_cons_of_mem _ hkv, hp⟩
          · rintro ⟨kv, hkv, hp⟩
            rw [hdrop] at hkv
            rcases List.mem_cons.mp hkv with rfl | h2
            · exact absurd hp hm
            · exact ⟨kv, h2, hp⟩
    · have hle : l.length ≤ i := by omega
      rw [sanitizeParamsLoop, dif_neg hi]
      rw [List.take_of_length_le hle, List.drop_eq_nil_of_le hle]
      rw [redactParams]
      simp

/-- Structural facts about `redactParams`: matched survivors are redacted,
unmatched parameters are exactly preserved, result keys come from the input,
and no matched name survives twice. -/
theorem redactParams_props (cfg : List String) :
    ∀ (n : Nat) (l : List (String × String)), l.length ≤ n →
    (∀ kv ∈ redactParams cfg l, shouldSanitizeParam cfg kv.1 = true → kv.2 = "[REDACTED]")
    ∧ ((redactParams cfg l).filter (fun kv => !shouldSanitizeParam cfg kv.1)
        = l.filter (fun kv => !shouldSanitizeParam cfg kv.1))
    ∧ (∀ kv ∈ redactParams cfg l, ∃ kv0 ∈ l, kv0.1 = kv.1)
    ∧ List.Pairwise (fun a b : String × String =>
        shouldSanitizeParam cfg a.1 = true → b.1 ≠ a.1) (redactParams cfg l) := by
  intro n
  induction n with
  | zero =>
    intro l hl
    have : l = [] := List.eq_nil_of_length_eq_zero (by omega)
    subst this
    rw [redactParams]
    simp
  | succ n ih =>
    intro l hl
    cases l with
    | nil =>
      rw [redactParams]
      simp
    | cons kv rest =>
      simp only [List.length_cons] at hl
      by_cases hm : shouldSanitizeParam cfg kv.1 = true
      · have heq : redactParams cfg (kv :: rest)
            = (kv.1, "[REDACTED]")
                :: redactParams cfg (rest.filter (fun p => decide (p.1 ≠ kv.1))) := by
          rw [redactParams, if_pos hm]
        have hlen : (rest.filter (fun p => decide (p.1 ≠ kv.1))).length ≤ n :=
          le_trans (List.length_filter_le _ _) (by omega)
        obtain ⟨ih1, ih2, ih3, ih4⟩ := ih (rest.filter (fun p => decide (p.1 ≠ kv.1))) hlen
        refine ⟨?_, ?_, ?_, ?_⟩
        · intro kv2 hkv2 hm2
          rw [heq] at hkv2
          rcases List.mem_cons.mp hkv2 with rfl | h2
          · rfl
          · exact ih1 kv2 h2 hm2
        · rw [heq]
          rw [List.filter_cons]
          simp only [hm, Bool.not_true]
          rw [List.filter_cons]
          simp only [hm, Bool.not_true]
          rw [ih2, List.filter_filter]
          refine List.filter_congr ?_
          intro p _
          by_cases hp : p.1 = kv.1
          · have : shouldSanitizeParam cfg p.1 = true := by rw [hp]; exact hm
            simp [this]
          · simp [hp]
        · intro kv2 hkv2
          rw [heq] at hkv2
          rcases List.mem_cons.mp hkv2 with rfl | h2
          · exact ⟨kv, List.mem_cons_self _ _, rfl⟩
          · obtain ⟨kv0, hkv0, hk⟩ := ih3 kv2 h2
            exact ⟨kv0, List.mem_cons_of_mem _ (List.mem_filter.mp hkv0).1, hk⟩
        · rw [heq]
          refine List.Pairwise.cons ?_ ih4
          intro b hb _
          obtain ⟨kv0, hkv0, hk⟩ := ih3 b hb
          have := (List.mem_filter.mp hkv0).2
          simp only [decide_eq_true_eq] at this
          rw [← hk]
          exact this
      · have heq : redactParams cfg (kv :: rest) = kv :: redactParams cfg rest := by
          rw [redactParams, if_neg hm]
        obtain ⟨ih1, ih2, ih3, ih4⟩ := ih rest (by omega)
        refine ⟨?_, ?_, ?_, ?_⟩
        · intro kv2 hkv2 hm2
          rw [heq] at hkv2
          rcases List.mem_cons.mp hkv2 with rfl | h2
          · exact absurd hm2 hm
          · exact ih1 kv2 h2 hm2
        · rw [heq]
          have hmf : shouldSanitizeParam cfg kv.1 = false := Bool.eq_false_iff.mpr hm
          rw [List.filter_cons, List.filter_cons]
          simp only [hmf, Bool.not_false, if_true]
          rw [ih2]
        · intro kv2 hkv2
          rw [heq] at hkv2
          rcases List.mem_cons.mp hkv2 with rfl | h2
          · exact ⟨kv2, List.mem_cons_self _ _, rfl⟩
          · obtain ⟨kv0, hkv0, hk⟩ := ih3 kv2 h2
            exact ⟨kv0, List.mem_cons_of_mem _ hkv0, hk⟩
        · rw [heq]
          refine List.Pairwise.cons ?_ ih4
          intro b _ hmk
          exact absurd hmk hm

/-- C8 (amended): `sanitizeUrl` returns the input unchanged when parsing
fails or when no parameter name matches; otherwise it serializes the query
rewritten by the `URLSearchParams.set` loop, which equals `redactParams`:
for every matched name the first parameter is redacted to `"[REDACTED]"` and
its later duplicates are removed, every surviving matched parameter carries
`"[REDACTED]"`, no matched name survives twice, and the unmatched parameters
are exactly those of the input, in order, with their values kept. -/
theorem sanitizeUrl_redacts (cfg : List String)
    (parseURL : String → Option (List (String × String)))
    (serializeURL : List (String × String) → String) (url : String) :
    (parseURL url = none → sanitizeUrl cfg parseURL serializeURL url = url)
    ∧ (∀ params, parseURL url = some params →
        ((∀ kv ∈ params, shouldSanitizeParam cfg kv.1 = false) →
            sanitizeUrl cfg parseURL serializeURL url = url)
        ∧ ((∃ kv ∈ params, shouldSanitizeParam cfg kv.1 = true) →
            sanitizeUrl cfg parseURL serializeURL url
              = serializeURL (redactParams cfg params))
        ∧ (sanitizeParamsLoop cfg params 0).1 = redactParams cfg params
        ∧ (∀ kv ∈ redactParams cfg params,
            shouldSanitizeParam cfg kv.1 = true → kv.2 = "[REDACTED]")
        ∧ ((redactParams cfg params).filter (fun kv => !shouldSanitizeParam cfg kv.1)
            = params.filter (fun kv => !shouldSanitizeParam cfg kv.1))
        ∧ List.Pairwise (fun a b : String × String =>
            shouldSanitizeParam cfg a.1 = true → b.1 ≠ a.1)
            (redactParams cfg params)) := by
  have hloop0 : ∀ params : List (String × String),
      sanitizeParamsLoop cfg params 0
        = (redactParams cfg params,
           decide (∃ kv ∈ params, shouldSanitizeParam cfg kv.1 = true)) := by
    intro params
    have h := sanitizeParamsLoop_eq cfg params.length params 0 (by omega) (by simp)
    simpa using h
  constructor
  · intro h
    unfold sanitizeUrl
    rw [h]
  · intro params h
    obtain ⟨r1, r2, r3, r4⟩ := redactParams_props cfg params.length params le_rfl
    refine ⟨?_, ?_, ?_, r1, r2, r4⟩
    · intro hnone
      have hd : decide (∃ kv ∈ params, shouldSanitizeParam cfg kv.1 = true) = false :=
        decide_eq_false (by
          rintro ⟨kv, hkv, hp⟩
          rw [hnone kv hkv] at hp
          cases hp)
      unfold sanitizeUrl
      rw [h]
      dsimp only
      rw [hloop0 params]
      dsimp only
      rw [hd]
      simp
    · intro hex
      have hd : decide (∃ kv ∈ params, shouldSanitizeParam cfg kv.1 = true) = true :=
        decide_eq_true hex
      unfold sanitizeUrl
      rw [h]
      dsimp only
      rw [hloop0 params]
      dsimp only
      rw [hd]
      simp
    · rw [hloop0 params]

/-- A concrete query serializer for the C8 counterexample and witness. -/
def serializePairsDemo : List (String × String) → String :=
  fun ps => String.intercalate "&" (ps.map fun kv => kv.1 ++ "=" ++ kv.2)

theorem sanitizeUrl_duplicate_param_counterexample :
    (sanitizeParamsLoop sanitizeParamsDefault [("token", "a"), ("token", "b")] 0).1
      = [("token", "[REDACTED]")]
    ∧ ([("token", "a"), ("token", "b")] : List (String × String)).length = 2
    ∧ sanitizeUrl sanitizeParamsDefault
        (fun _ => some [("token", "a"), ("token", "b")]) serializePairsDemo
        "https://x/y?token=a&token=b"
      = "token=[REDACTED]" := by
  have hloop : sanitizeParamsLoop sanitizeParamsDefault
      [("token", "a"), ("token", "b")] 0 = ([("token", "[REDACTED]")], true) := by
    rw [sanitizeParamsLoop, dif_pos (by norm_num)]
    rw [if_pos (by decide)]
    norm_num [jsSearchParamsSet]
    rw [sanitizeParamsLoop]
    norm_num
  refine ⟨by rw [hloop], rfl, ?_⟩
  unfold sanitizeUrl
  dsimp only
  rw [hloop]
  dsimp only
  rw [if_pos rfl]
  decide

theorem sanitizeUrl_redacts_witness :
    sanitizeUrl sanitizeParamsDefault
      (fun _ => some [("Token", "abc"), ("name", "n")]) serializePairsDemo
      "https://x/y?Token=abc&name=n" = "Token=[REDACTED]&name=n" := by
  have h := (sanitizeUrl_redacts sanitizeParamsDefault
    (fun _ => some [("Token", "abc"), ("name", "n")]) serializePairsDemo
    "https://x/y?Token=abc&name=n").2 [("Token", "abc"), ("name", "n")] rfl
  have h2 := h.2.1 ⟨("Token", "abc"), by decide, by decide⟩
  rw [h2]
  have hred : redactParams sanitizeParamsDefault [("Token", "abc"), ("name", "n")]
      = [("Token", "[REDACTED]"), ("name", "n")] := by
    rw [redactParams, if_pos (by decide)]
    norm_num [List.filter_cons, List.filter_nil]
    rw [if_neg (by decide : ¬("name" = "Token"))]
    rw [redactParams, if_neg (by decide)]
    rw [redactParams]
  rw [hred]
  decide

/-- C9 (amended): `addEvent` leaves the buffer unchanged (drops the event)
exactly when the event is an internal self-log — a console-plugin record
(rrweb type 6 with the console plugin's name) whose first payload argument is
a string that *contains* the reserved marker `"[SDK]"` (the source tests
`includes`, not a prefix) — and appends every other event. -/
theorem addEvent_internal_filter (es : EventType → Nat) (now : Nat)
    (e : EventType) (st : BufferState) :
    ((addEvent es now e st).1.buffer = st.buffer ↔ isInternalSdkLog e = true)
    ∧ (isInternalSdkLog e = false →
        (addEvent es now e st).1.buffer = st.buffer ++ [e])
    ∧ (isInternalSdkLog e = true ↔
        e.type = 6 ∧ e.data.plugin = some CONSOLE_LOG_PLUGIN_NAME ∧
        ∃ firstArg rest, e.data.payloadArgs = some (JsVal.str firstArg :: rest) ∧
          strIncludes firstArg "[SDK]" = true) := by
  refine ⟨?_, ?_, ?_⟩
  · by_cases hi : isInternalSdkLog e
    · simp [addEvent, hi]
    · simp only [addEvent, hi, Bool.false_eq_true, if_false]
      simp [hi]
  · intro hi
    simp [addEvent, hi]
  · unfold isInternalSdkLog
    by_cases hc : e.type = 6 ∧ e.data.plugin = some CONSOLE_LOG_PLUGIN_NAME
    · rw [if_pos hc]
      obtain ⟨h6, hp⟩ := hc
      cases harg : e.data.payloadArgs with
      | none => simp [h6, hp]
      | some args =>
        cases args with
        | nil => simp [h6, hp]
        | cons a rest =>
          cases a with
          | str s =>
            simp only [h6, hp, true_and]
            constructor
            · intro h
              exact ⟨s, rest, rfl, h⟩
            · rintro ⟨fa, r, heq, h⟩
              obtain ⟨rfl, rfl⟩ : s = fa ∧ rest = r := by
                have := Option.some.inj heq
                exact ⟨by injection this with h1 _; injection h1,
                       by injection this with _ h2⟩
              exact h
          | nonString => simp [h6, hp]
    · rw [if_neg hc]
      simp only [Bool.false_eq_true, false_iff]
      intro hcon
      exact hc ⟨hcon.1, hcon.2.1⟩

/-- A console record whose first argument merely *contains* `"[SDK]"`. -/
def sdkMidEvent : EventType :=
  ⟨6, ⟨some CONSOLE_LOG_PLUGIN_NAME, some [JsVal.str "request failed [SDK] retrying"]⟩⟩

/-- An ordinary (non-console) event. -/
def plainEvent : EventType := ⟨2, {}⟩

/-- A fresh empty buffer state used by the C9 counterexample and witness. -/
def stPlain : BufferState :=
  { buffer := [], bufferSize := 0, lastFlushTime := 0, sessionId := "s",
    startTime := 0, isFlushInProgress := false, flushFailures := 0,
    backoffUntil := 0, lastBatchEndTime := none }

theorem addEvent_internal_filter_counterexample :
    (addEvent (fun _ => 1) 0 sdkMidEvent stPlain).1.buffer = stPlain.buffer
    ∧ isInternalSdkLog sdkMidEvent = true
    ∧ leadsWith "[SDK]".data "request failed [SDK] retrying".data = false := by
  refine ⟨?_, by decide, by decide⟩
  have h : isInternalSdkLog sdkMidEvent = true := by decide
  simp [addEvent, h]

theorem addEvent_internal_filter_witness :
    (addEvent (fun _ => 1) 0 plainEvent stPlain).1.buffer = stPlain.buffer ++ [plainEvent] :=
  (addEvent_internal_filter (fun _ => 1) 0 plainEvent stPlain).2.1 (by decide)

/-- C4 (amended): for a non-internal event added with no flush in progress,
past the backoff deadline and within the buffer-age window, `addEvent`
schedules a flush iff the resulting buffer size strictly exceeds
`maxBufferSize * 0.9` — i.e. iff it is at least 943719 bytes of the 1 MiB
cap.  In particular no flush is scheduled at exactly 90% of the cap (and a
fortiori not at 921600 bytes or at 89%). -/
theorem addEvent_schedule_threshold (es : EventType → Nat) (now : Nat)
    (e : EventType) (st : BufferState)
    (hint : isInternalSdkLog e = false)
    (hip : st.isFlushInProgress = false)
    (hbk : st.backoffUntil < now)
    (hage : now - st.lastFlushTime ≤ maxBufferAge) :
    ((addEvent es now e st).2 = true ↔
      9 * maxBufferSize < 10 * (st.bufferSize + es e))
    ∧ (addEvent es now e st).1.bufferSize = st.bufferSize + es e := by
  have hB : ¬(maxBufferAge < now - st.lastFlushTime) := Nat.not_lt.mpr hage
  constructor
  · simp [addEvent, hint, hip, hB, hbk]
  · simp [addEvent, hint]

/-- A buffer one byte short of the claim's "90%" figure. -/
def stNearCap : BufferState :=
  { buffer := [plainEvent], bufferSize := 921599, lastFlushTime := 0,
    sessionId := "s", startTime := 0, isFlushInProgress := false,
    flushFailures := 0, backoffUntil := 0, lastBatchEndTime := none }

theorem addEvent_schedule_threshold_counterexample :
    (addEvent (fun _ => 1) 5 plainEvent stNearCap).1.bufferSize = 921600
    ∧ (addEvent (fun _ => 1) 5 plainEvent stNearCap).2 = false
    ∧ stNearCap.isFlushInProgress = false
    ∧ stNearCap.backoffUntil < 5
    ∧ 5 - stNearCap.lastFlushTime ≤ maxBufferAge := by
  refine ⟨?_, ?_, rfl, by decide, by decide⟩
  · rfl
  · rfl

theorem addEvent_schedule_threshold_witness :
    (addEvent (fun _ => 943719) 5 plainEvent stPlain).2 = true := by
  have h := addEvent_schedule_threshold (fun _ => 943719) 5 plainEvent stPlain
    (by decide) rfl (by decide) (by decide)
  exact h.1.mpr (by norm_num [stPlain, maxBufferSize])

/-- Splitting preserves the event stream: the pieces' `data` arrays
concatenate, in order, to the original buffer's `data`. -/
theorem splitBuffer_data_join (es : List EventType → Nat) (limit : Nat)
    (b : LegacySnapshotBuffer) :
    ((splitBuffer es limit b).map LegacySnapshotBuffer.data).flatten = b.data := by
  generalize hn : b.data.length = n
  induction n using Nat.strong_induction_on generalizing b with
  | _ n ih =>
    rw [splitBuffer]
    split_ifs with h
    · have h1 := ih (b.data.take (b.data.length / 2)).length
        (by rw [List.length_take]; omega)
        { size := es (b.data.take (b.data.length / 2)),
          data := b.data.take (b.data.length / 2),
          sessionId := b.sessionId, startTime := b.startTime } rfl
      have h2 := ih (b.data.drop (b.data.length / 2)).length
        (by rw [List.length_drop]; omega)
        { size := es (b.data.drop (b.data.length / 2)),
          data := b.data.drop (b.data.length / 2),
          sessionId := b.sessionId, startTime := b.startTime } rfl
      rw [List.map_append, List.flatten_append, h1, h2, List.take_append_drop]
    · simp

/-- Every piece produced by `splitBuffer` carries the re-estimated size of
its own slice, is nonempty, and is either under the size limit or a single
event (assuming the root buffer's `size` field is its own estimate). -/
theorem splitBuffer_piece_bound (es : List EventType → Nat) (limit : Nat)
    (b : LegacySnapshotBuffer) (hsize : b.size = es b.data) (hne : b.data ≠ []) :
    ∀ p ∈ splitBuffer es limit b,
      p.size = es p.data ∧ p.data ≠ [] ∧ (p.size < limit ∨ p.data.length = 1) := by
  generalize hn : b.data.length = n
  induction n using Nat.strong_induction_on generalizing b with
  | _ n ih =>
    rw [splitBuffer]
    split_ifs with h
    · intro p hp
      rcases List.mem_append.mp hp with hp1 | hp2
      · refine ih (b.data.take (b.data.length / 2)).length
          (by rw [List.length_take]; omega)
          { size := es (b.data.take (b.data.length / 2)),
            data := b.data.take (b.data.length / 2),
            sessionId := b.sessionId, startTime := b.startTime }
          rfl ?_ rfl p hp1
        apply List.ne_nil_of_length_pos
        rw [List.length_take]
        omega
      · refine ih (b.data.drop (b.data.length / 2)).length
          (by rw [List.length_drop]; omega)
          { size := es (b.data.drop (b.data.length / 2)),
            data := b.data.drop (b.data.length / 2),
            sessionId := b.sessionId, startTime := b.startTime }
          rfl ?_ rfl p hp2
        apply List.ne_nil_of_length_pos
        rw [List.length_drop]
        omega
    · intro p hp
      rw [List.mem_singleton] at hp
      subst hp
      refine ⟨hsize, hne, ?_⟩
      have hlen : 0 < p.data.length := List.length_pos.mpr hne
      push_neg at h
      by_cases hs : p.size < limit
      · exact Or.inl hs
      · have := h (Nat.le_of_not_lt hs)
        omega

/-- C5: `splitBuffer` returns pieces whose `data` arrays concatenate in order
to the input's `data`; when the input's `size` is the estimate of its own
slice and its `data` is nonempty, every piece carries the re-estimated size
of its own slice and is either strictly under the `SEVEN_MEGABYTES` cap or
exactly one event; an input already under the cap, or with at most one
event, is returned unchanged as the sole piece. -/
theorem splitBuffer_spec (es : List EventType → Nat) (b : LegacySnapshotBuffer)
    (hsize : b.size = es b.data) (hne : b.data ≠ []) :
    ((splitBuffer es SEVEN_MEGABYTES b).map LegacySnapshotBuffer.data).flatten = b.data
    ∧ (∀ p ∈ splitBuffer es SEVEN_MEGABYTES b,
        p.size = es p.data ∧ (p.size < SEVEN_MEGABYTES ∨ p.data.length = 1))
    ∧ (b.size < SEVEN_MEGABYTES ∨ b.data.length ≤ 1 →
        splitBuffer es SEVEN_MEGABYTES b = [b]) := by
  refine ⟨splitBuffer_data_join es SEVEN_MEGABYTES b, ?_, ?_⟩
  · intro p hp
    obtain ⟨h1, _, h3⟩ := splitBuffer_piece_bound es SEVEN_MEGABYTES b hsize hne p hp
    exact ⟨h1, h3⟩
  · intro h
    rw [splitBuffer]
    rw [if_neg ?_]
    rintro ⟨hs, hl⟩
    rcases h with h | h
    · omega
    · omega

/-- Two plain events for the C5 witness. -/
def evA : EventType := ⟨1, {}⟩

def evB : EventType := ⟨4, {}⟩

/-- A length-proportional size estimate making `[evA, evB]` weigh 8 MB. -/
def esBig : List EventType → Nat := fun l => l.length * 4000000

/-- An oversized two-event buffer for the C5 witness. -/
def bufBig : LegacySnapshotBuffer :=
  { size := 8000000, data := [evA, evB], sessionId := "s", startTime := 100 }

theorem splitBuffer_spec_witness :
    ((splitBuffer esBig SEVEN_MEGABYTES bufBig).map LegacySnapshotBuffer.data).flatten
      = [evA, evB] :=
  (splitBuffer_spec esBig bufBig rfl (by decide)).1

/-- One round of a session: events arriving (through `addEvent`) followed by
a flush attempt at clock reading `time`. -/
structure FlushStep where
  events : List EventType
  time : Nat
deriving DecidableEq, Repr

/-- Run a sequence of rounds in which every flush succeeds (`ok = true`,
`isSessionEnded = false`), collecting the emitted batches in order. -/
def runFlushes (es : EventType → Nat) :
    List FlushStep → BufferState → BufferState × List SnapshotBuffer
  | [], st => (st, [])
  | step :: rest, st =>
      let st1 := addEvents es step.time step.events st
      let r := flush es step.time false true st1
      let rr := runFlushes es rest r.1
      (rr.1, r.2.toList ++ rr.2)

/-- `addEvent` either drops an internal log (state untouched) or appends the
event and adds its size. -/
theorem addEvent_fst (es : EventType → Nat) (now : Nat) (e : EventType)
    (st : BufferState) :
    (addEvent es now e st).1 =
      if isInternalSdkLog e then st
      else { st with buffer := st.buffer ++ [e],
                     bufferSize := st.bufferSize + es e } := by
  unfold addEvent
  split_ifs with h
  · rfl
  · rfl

/-- `addEvents` appends exactly the non-internal events and their sizes,
leaving every other field unchanged. -/
theorem addEvents_fst (es : EventType → Nat) (now : Nat) (events : List EventType) :
    ∀ st : BufferState,
    addEvents es now events st =
      { st with
          buffer := st.buffer ++ events.filter (fun e => !isInternalSdkLog e),
          bufferSize := st.bufferSize +
            ((events.filter (fun e => !isInternalSdkLog e)).map es).sum } := by
  induction events with
  | nil =>
    intro st
    cases st
    simp [addEvents]
  | cons e rest ih =>
    intro st
    have hstep : addEvents es now (e :: rest) st =
        addEvents es now rest (addEvent es now e st).1 := by
      simp [addEvents]
    rw [hstep, ih, addEvent_fst]
    by_cases h : isInternalSdkLog e
    · cases st
      simp [h, List.filter_cons]
    · cases st
      simp [h, List.filter_cons, List.append_assoc]
      omega

/-- `jsOrNat (some t) b = t` for positive `t`. -/
theorem jsOrNat_pos (t b : Nat) (h : 0 < t) : jsOrNat (some t) b = t := by
  cases t with
  | zero => omega
  | succ n => rfl

/-- Indexing a zip indexes both components. -/
theorem zip_get_pair {α β : Type} (l1 : List α) (l2 : List β) :
    ∀ (i : Nat) (h : i < (l1.zip l2).length) (h1 : i < l1.length)
      (h2 : i < l2.length),
    (l1.zip l2).get ⟨i, h⟩ = (l1.get ⟨i, h1⟩, l2.get ⟨i, h2⟩) := by
  induction l1 generalizing l2 with
  | nil => intro i _ h1 _; exact absurd h1 (by simp)
  | cons a as ih =>
    intro i h h1 h2
    cases l2 with
    | nil => exact absurd h2 (by simp)
    | cons b bs =>
      cases i with
      | zero => rfl
      | succ j =>
        simp only [List.zip_cons_cons, List.get_cons_succ]
        exact ih bs j (by simpa using h) (by simpa using h1) (by simpa using h2)

/-- Mapping `Prod.fst` over the shifted self-zip recovers the front of the
longer list. -/
theorem zip_shift_map_fst {α : Type} :
    ∀ (ts : List α) (a : α),
    (((a :: ts).zip ts).map Prod.fst) = (a :: ts).take ts.length := by
  intro ts
  induction ts with
  | nil => intro a; rfl
  | cons t ts' ih =>
    intro a
    simp only [List.zip_cons_cons, List.map_cons, List.length_cons, List.take_succ_cons]
    rw [ih t]

/-- Core chronology invariant: starting from an idle, non-backed-off state,
every successful flush emits a batch spanning from the current anchor
(`lastBatchEndTime` if set and nonzero, else the session `startTime`) to the
flush's clock reading, and the anchor advances to that reading. -/
theorem runFlushes_pairs (es : EventType → Nat) :
    ∀ (steps : List FlushStep) (st : BufferState),
    st.isFlushInProgress = false →
    st.backoffUntil = 0 →
    (∀ s ∈ steps, s.events.filter (fun e => !isInternalSdkLog e) ≠ []) →
    List.Chain' (· < ·)
      (jsOrNat st.lastBatchEndTime st.startTime :: steps.map FlushStep.time) →
    (runFlushes es steps st).2.map (fun b => (b.startTime, b.endTime)) =
      (jsOrNat st.lastBatchEndTime st.startTime :: steps.map FlushStep.time).zip
        (steps.map FlushStep.time) := by
  intro steps
  induction steps with
  | nil =>
    intro st _ _ _ _
    simp [runFlushes]
  | cons step rest ih =>
    intro st h1 h2 h3 h4
    simp only [List.map_cons, List.chain'_cons] at h4
    obtain ⟨hat, hchain⟩ := h4
    have htpos : 0 < step.time := by omega
    have hst1 := addEvents_fst es step.time step.events st
    have hfil : step.events.filter (fun e => !isInternalSdkLog e) ≠ [] :=
      h3 step (List.mem_cons_self step rest)
    have hbuf : (addEvents es step.time step.events st).buffer ≠ [] := by
      rw [hst1]
      intro hcontra
      exact hfil (List.append_eq_nil.mp hcontra).2
    have hip1 : (addEvents es step.time step.events st).isFlushInProgress = false := by
      rw [hst1]
      exact h1
    have hbk1 : (addEvents es step.time step.events st).backoffUntil = 0 := by
      rw [hst1]
      exact h2
    have hflush : flush es step.time false true (addEvents es step.time step.events st) =
        ({ addEvents es step.time step.events st with
            buffer := [], bufferSize := 0, lastFlushTime := step.time,
            flushFailures := 0, backoffUntil := 0,
            lastBatchEndTime := some step.time },
         some { isSessionEnded := false
                sessionId := (addEvents es step.time step.events st).sessionId
                startTime := jsOrNat
                  (addEvents es step.time step.events st).lastBatchEndTime
                  (addEvents es step.time step.events st).startTime
                endTime := step.time
                size := (addEvents es step.time step.events st).bufferSize
                data := (addEvents es step.time step.events st).buffer }) := by
      unfold flush
      rw [if_neg (by simp [List.length_eq_zero, hbuf, hip1])]
      rw [if_neg (by simp [hbk1])]
      rw [if_pos rfl]
    simp only [runFlushes]
    rw [hflush]
    simp only [Option.toList_some, List.singleton_append, List.map_cons]
    have hanchor1 : (addEvents es step.time step.events st).lastBatchEndTime
        = st.lastBatchEndTime := by rw [hst1]
    have hanchor2 : (addEvents es step.time step.events st).startTime
        = st.startTime := by rw [hst1]
    have hih := ih { addEvents es step.time step.events st with
        buffer := [], bufferSize := 0, lastFlushTime := step.time,
        flushFailures := 0, backoffUntil := 0,
        lastBatchEndTime := some step.time }
      (by simpa using hip1) rfl
      (fun s hs => h3 s (List.mem_cons_of_mem step hs))
      (by simpa [jsOrNat_pos step.time _ htpos] using hchain)
    simp only at hih
    rw [hih]
    simp only [jsOrNat_pos step.time _ htpos, hanchor1, hanchor2, List.zip_cons_cons]

/-- C1: across any sequence of successful flushes of one session (arrivals
then a flush per round, with strictly increasing clock readings after the
session start, and at least one retained event per round), the emitted
batches' `startTime` values are strictly increasing, each batch's
`startTime` equals the previous batch's `endTime`, and the first batch's
`startTime` equals the session's `startTime`. -/
theorem flush_chronology (es : EventType → Nat) (steps : List FlushStep)
    (st : BufferState)
    (hip : st.isFlushInProgress = false) (hbk : st.backoffUntil = 0)
    (hfresh : st.lastBatchEndTime = none)
    (hne : ∀ s ∈ steps, s.events.filter (fun e => !isInternalSdkLog e) ≠ [])
    (hclock : List.Chain' (· < ·) (st.startTime :: steps.map FlushStep.time)) :
    (runFlushes es steps st).2.length = steps.length
    ∧ List.Pairwise (· < ·)
        ((runFlushes es steps st).2.map (fun b => b.startTime))
    ∧ (∀ (i : Nat) (hi : i < (runFlushes es steps st).2.length)
         (hi1 : i + 1 < (runFlushes es steps st).2.length),
        ((runFlushes es steps st).2.get ⟨i + 1, hi1⟩).startTime =
          ((runFlushes es steps st).2.get ⟨i, hi⟩).endTime)
    ∧ (∀ hpos : 0 < (runFlushes es steps st).2.length,
        ((runFlushes es steps st).2.get ⟨0, hpos⟩).startTime = st.startTime) := by
  have hanchor : jsOrNat st.lastBatchEndTime st.startTime = st.startTime := by
    rw [hfresh]
    rfl
  have P := runFlushes_pairs es steps st hip hbk hne (by rwa [hanchor])
  rw [hanchor] at P
  set bs := (runFlushes es steps st).2 with hbs
  set ts := steps.map FlushStep.time with hts
  have htslen : ts.length = steps.length := by simp [hts]
  have hlen : bs.length = ts.length := by
    have hc := congrArg List.length P
    simp only [List.length_map, List.length_zip, List.length_cons] at hc
    omega
  have hpt : ∀ (i : Nat) (hi : i < bs.length),
      (bs.get ⟨i, hi⟩).startTime
          = (st.startTime :: ts).get ⟨i, by simp only [List.length_cons]; omega⟩
      ∧ (bs.get ⟨i, hi⟩).endTime = ts.get ⟨i, by omega⟩ := by
    intro i hi
    have hzlen : i < ((st.startTime :: ts).zip ts).length := by
      simp only [List.length_zip, List.length_cons]
      omega
    have hgeq := List.get_of_eq P ⟨i, by simpa using hi⟩
    rw [List.get_map] at hgeq
    rw [zip_get_pair (st.startTime :: ts) ts i hzlen
      (by simp only [List.length_cons]; omega) (by omega)] at hgeq
    exact ⟨congrArg Prod.fst hgeq, congrArg Prod.snd hgeq⟩
  refine ⟨hlen.trans htslen, ?_, ?_, ?_⟩
  · have hmap : bs.map (fun b => b.startTime) = (st.startTime :: ts).take ts.length := by
      have h1 : bs.map (fun b => b.startTime)
          = (bs.map (fun b => (b.startTime, b.endTime))).map Prod.fst := by
        rw [List.map_map]
        rfl
      rw [h1, P, zip_shift_map_fst]
    rw [hmap]
    have hpw : List.Pairwise (· < ·) (st.startTime :: ts) :=
      List.chain'_iff_pairwise.mp hclock
    exact hpw.sublist (List.take_sublist _ _)
  · intro i hi hi1
    have e1 := (hpt (i + 1) hi1).1
    have e2 := (hpt i hi).2
    rw [e1, e2]
    rfl
  · intro hpos
    exact (hpt 0 hpos).1

/-- Two rounds for the C1 witness: one event arrives before each flush. -/
def stepsDemo : List FlushStep :=
  [{ events := [plainEvent], time := 150 }, { events := [plainEvent], time := 200 }]

/-- A fresh session state starting at t = 100 for the C1 witness. -/
def stSession : BufferState :=
  { buffer := [], bufferSize := 0, lastFlushTime := 100, sessionId := "s",
    startTime := 100, isFlushInProgress := false, flushFailures := 0,
    backoffUntil := 0, lastBatchEndTime := none }

theorem flush_chronology_witness :
    (runFlushes (fun _ => 1) stepsDemo stSession).2.length = 2
    ∧ List.Pairwise (· < ·)
        ((runFlushes (fun _ => 1) stepsDemo stSession).2.map (fun b => b.startTime)) := by
  have h := flush_chronology (fun _ => 1) stepsDemo stSession rfl rfl rfl
    (by decide)
    (by show List.Chain' (· < ·) [100, 150, 200]
        norm_num [List.chain'_cons])
  exact ⟨h.1.trans rfl, h.2.1⟩
